import Mathlib

/-!
Verification of the replkit terminal key-input parser against its
natural-language specification.

The repository ships the parser core as a compiled extension; only its
Python test-suites and binding glue are present as source.  The parser
itself (key model, sequence table, streaming state machine) is therefore
modelled here from the specification document, and every claim is settled
against that model.
-/

namespace Replkit

set_option maxHeartbeats 1600000 in
/-- Modelled from the spec: the closed, tagged set of key identities
(§3 "Key").  The Rust `Key` enum is not in the source tree; variants here
cover the control keys, navigation keys with the modifier-qualified
variants the spec and tests name (Shift/Alt/Control singles), function
keys F1-F12, the meta-prefixed `Alt+<byte>` resolution of `ESC <byte>`,
and the composite report keys. -/
inductive Key where
  | notDefined
  | controlA | controlB | controlC | controlD | controlE | controlF | controlG
  | controlJ | controlK | controlL | controlN | controlO
  | controlP | controlQ | controlR | controlS | controlT | controlU | controlV
  | controlW | controlX | controlY | controlZ
  | tab | enter | escape | backspace
  | up | down | left | right | home | endKey | pageUp | pageDown | insert | delete
  | shiftUp | shiftDown | shiftLeft | shiftRight
  | altUp | altDown | altLeft | altRight
  | controlUp | controlDown | controlLeft | controlRight
  | f1 | f2 | f3 | f4 | f5 | f6 | f7 | f8 | f9 | f10 | f11 | f12
  | bracketedPaste | vt100MouseEvent | cprResponse
  | alt (b : Nat)
  deriving Repr

/-- Numeric code of a key, used only to decide equality of keys: the
payload-free variants get distinct codes below 100 and `alt b` gets
`100 + b`. -/
def Key.code : Key → Nat
  | .notDefined => 0
  | .controlA => 1 | .controlB => 2 | .controlC => 3 | .controlD => 4
  | .controlE => 5 | .controlF => 6 | .controlG => 7
  | .controlJ => 10 | .controlK => 11 | .controlL => 12
  | .controlN => 14 | .controlO => 15 | .controlP => 16 | .controlQ => 17
  | .controlR => 18 | .controlS => 19 | .controlT => 20 | .controlU => 21
  | .controlV => 22 | .controlW => 23 | .controlX => 24 | .controlY => 25
  | .controlZ => 26
  | .tab => 27 | .enter => 28 | .escape => 29 | .backspace => 30
  | .up => 31 | .down => 32 | .left => 33 | .right => 34 | .home => 35
  | .endKey => 36 | .pageUp => 37 | .pageDown => 38 | .insert => 39
  | .delete => 40
  | .shiftUp => 41 | .shiftDown => 42 | .shiftLeft => 43 | .shiftRight => 44
  | .altUp => 45 | .altDown => 46 | .altLeft => 47 | .altRight => 48
  | .controlUp => 49 | .controlDown => 50 | .controlLeft => 51
  | .controlRight => 52
  | .f1 => 53 | .f2 => 54 | .f3 => 55 | .f4 => 56 | .f5 => 57 | .f6 => 58
  | .f7 => 59 | .f8 => 60 | .f9 => 61 | .f10 => 62 | .f11 => 63 | .f12 => 64
  | .bracketedPaste => 65 | .vt100MouseEvent => 66 | .cprResponse => 67
  | .alt b => 100 + b

/-- Partial inverse of `Key.code`, used only to decide equality of keys. -/
def Key.ofCode (n : Nat) : Key :=
  if 100 ≤ n then .alt (n - 100)
  else match n with
  | 0 => .notDefined
  | 1 => .controlA | 2 => .controlB | 3 => .controlC | 4 => .controlD
  | 5 => .controlE | 6 => .controlF | 7 => .controlG
  | 10 => .controlJ | 11 => .controlK | 12 => .controlL
  | 14 => .controlN | 15 => .controlO | 16 => .controlP | 17 => .controlQ
  | 18 => .controlR | 19 => .controlS | 20 => .controlT | 21 => .controlU
  | 22 => .controlV | 23 => .controlW | 24 => .controlX | 25 => .controlY
  | 26 => .controlZ
  | 27 => .tab | 28 => .enter | 29 => .escape | 30 => .backspace
  | 31 => .up | 32 => .down | 33 => .left | 34 => .right | 35 => .home
  | 36 => .endKey | 37 => .pageUp | 38 => .pageDown | 39 => .insert
  | 40 => .delete
  | 41 => .shiftUp | 42 => .shiftDown | 43 => .shiftLeft | 44 => .shiftRight
  | 45 => .altUp | 46 => .altDown | 47 => .altLeft | 48 => .altRight
  | 49 => .controlUp | 50 => .controlDown | 51 => .controlLeft
  | 52 => .controlRight
  | 53 => .f1 | 54 => .f2 | 55 => .f3 | 56 => .f4 | 57 => .f5 | 58 => .f6
  | 59 => .f7 | 60 => .f8 | 61 => .f9 | 62 => .f10 | 63 => .f11 | 64 => .f12
  | 65 => .bracketedPaste | 66 => .vt100MouseEvent | 67 => .cprResponse
  | _ => .notDefined

set_option maxHeartbeats 1600000 in
theorem Key.ofCode_code (k : Key) : Key.ofCode k.code = k := by
  cases k <;> try rfl
  case alt b =>
    show Key.ofCode (100 + b) = Key.alt b
    unfold Key.ofCode
    rw [if_pos (by omega : (100 : Nat) ≤ 100 + b), Nat.add_sub_cancel_left]

instance : DecidableEq Key := fun a b =>
  decidable_of_iff (a.code = b.code)
    ⟨fun h => by rw [← Key.ofCode_code a, ← Key.ofCode_code b, h],
     fun h => by rw [h]⟩

/-- Modelled from the spec: the immutable event record (§3 "KeyEvent"):
a key, the exact bytes consumed to produce it, and optional decoded text. -/
structure KeyEvent where
  key : Key
  raw_bytes : List Nat
  text : Option String
  deriving DecidableEq, Repr

/-- Modelled from the spec: `has_text() == (text is not None)` (§3). -/
def KeyEvent.has_text (e : KeyEvent) : Bool :=
  e.text.isSome

/-- Modelled from the spec: `text_or_empty()` returns "" when text is
absent (§3). -/
def KeyEvent.text_or_empty (e : KeyEvent) : String :=
  e.text.getD ""

/-- Modelled from the spec: the mode discriminator of the parser state
(§3 "Parser internal state", §4.2): Normal / awaiting-escape-continuation /
awaiting-CSI-parameters / awaiting-SS3-letter / inside-bracketed-paste-body. -/
inductive ParserState where
  | normal | escape | csi | ss3 | pasteBody
  deriving DecidableEq, Repr

/-- Modelled from the spec: the parser is one mutable buffer of pending
bytes plus a mode discriminator (§3).  Bytes are modelled as `Nat` values
below 256. -/
structure KeyParser where
  buffer : List Nat
  state : ParserState
  deriving DecidableEq, Repr

/-- Modelled from the spec: a freshly constructed parser: empty buffer,
Normal state. -/
def KeyParser.new : KeyParser :=
  ⟨[], ParserState.normal⟩

/-- Modelled from the spec: the fixed control-byte table (§4.3):
0x01→Ctrl+A … 0x1A→Ctrl+Z, with 0x09→Tab, 0x0D→Enter, 0x7F/0x08→Backspace
taking precedence over the corresponding Ctrl letters.  0x1B (ESC) never
reaches this table; other control bytes have no named key and fall back to
NotDefined. -/
def ctrlKey (b : Nat) : Key :=
  match b with
  | 1 => Key.controlA | 2 => Key.controlB | 3 => Key.controlC | 4 => Key.controlD
  | 5 => Key.controlE | 6 => Key.controlF | 7 => Key.controlG | 8 => Key.backspace
  | 9 => Key.tab | 10 => Key.controlJ | 11 => Key.controlK | 12 => Key.controlL
  | 13 => Key.enter | 14 => Key.controlN | 15 => Key.controlO | 16 => Key.controlP
  | 17 => Key.controlQ | 18 => Key.controlR | 19 => Key.controlS | 20 => Key.controlT
  | 21 => Key.controlU | 22 => Key.controlV | 23 => Key.controlW | 24 => Key.controlX
  | 25 => Key.controlY | 26 => Key.controlZ | 127 => Key.backspace
  | _ => Key.notDefined

/-- Modelled from the spec: modifier decoding (§4.1): the modifier mask is
a bitset of {Shift=1, Alt=2, Control=4, Meta=8}; the spec's open question
(§9) notes only a subset of combinations is pinned down by tests, so the
single-modifier masks are mapped to their baked-in variants and other
masks fall back to NotDefined. -/
def applyMod (mask : Nat) (k : Key) : Key :=
  match mask, k with
  | 0, k => k
  | 1, Key.up => Key.shiftUp
  | 1, Key.down => Key.shiftDown
  | 1, Key.left => Key.shiftLeft
  | 1, Key.right => Key.shiftRight
  | 2, Key.up => Key.altUp
  | 2, Key.down => Key.altDown
  | 2, Key.left => Key.altLeft
  | 2, Key.right => Key.altRight
  | 4, Key.up => Key.controlUp
  | 4, Key.down => Key.controlDown
  | 4, Key.left => Key.controlLeft
  | 4, Key.right => Key.controlRight
  | _, _ => Key.notDefined

/-- Modelled from the spec: CSI final bytes selecting a base key (§4.1):
`A`/`B`/`C`/`D` → arrows, `H`/`F` → Home/End. -/
def csiFinalBase (b : Nat) : Option Key :=
  match b with
  | 65 => some Key.up | 66 => some Key.down | 67 => some Key.right
  | 68 => some Key.left | 72 => some Key.home | 70 => some Key.endKey
  | _ => none

/-- Modelled from the spec: the standard xterm CSI `~` numeric-code
table (§4.1, §9): Insert/Delete/PageUp/PageDown/F5-F12 by numeric code;
codes without an entry fall back to NotDefined. -/
def tildeKey (n : Nat) : Key :=
  match n with
  | 1 => Key.home | 2 => Key.insert | 3 => Key.delete | 4 => Key.endKey
  | 5 => Key.pageUp | 6 => Key.pageDown
  | 15 => Key.f5 | 17 => Key.f6 | 18 => Key.f7 | 19 => Key.f8
  | 20 => Key.f9 | 21 => Key.f10 | 23 => Key.f11 | 24 => Key.f12
  | _ => Key.notDefined

/-- Modelled from the spec: splits the raw CSI parameter bytes at each
`;` (0x3B) into groups of digit bytes. -/
def splitParams : List Nat → List (List Nat)
  | [] => [[]]
  | b :: rest =>
    match splitParams rest with
    | g :: gs => if b = 59 then [] :: g :: gs else (b :: g) :: gs
    | [] => [[b]]

/-- Modelled from the spec: a group of decimal digit bytes read as a
number (an empty group reads as 0). -/
def digitsVal (g : List Nat) : Nat :=
  g.foldl (fun a b => a * 10 + (b - 48)) 0

/-- Modelled from the spec: the optional `;`-separated sequence of decimal
integers between `ESC [` and the final byte (§4.1); no parameter bytes at
all yields an empty parameter list. -/
def parseParams (bs : List Nat) : List Nat :=
  match bs with
  | [] => []
  | _ => (splitParams bs).map digitsVal

/-- Modelled from the spec: the sequence-table lookup for a completed CSI
sequence (§4.1): arrows/Home/End by final byte with the second parameter
decoded as `modifier = value - 1`; `~` finals through the numeric-code
table; `ESC[<row>;<col>R` → CPRResponse; `ESC[M` → Vt100MouseEvent (the
three post-marker data bytes of the legacy mouse report are not collected,
as the spec's state machine in §4.2 has no mouse state); anything else →
NotDefined, never an error. -/
def csiLookup (params : List Nat) (final : Nat) : Key :=
  if final = 126 then
    match params with
    | [n] => tildeKey n
    | [n, m] => applyMod (m - 1) (tildeKey n)
    | _ => Key.notDefined
  else if final = 82 then
    match params with
    | [_, _] => Key.cprResponse
    | _ => Key.notDefined
  else if final = 77 then Key.vt100MouseEvent
  else
    match csiFinalBase final with
    | some base =>
      match params with
      | [] => base
      | [_] => base
      | [_, m] => applyMod (m - 1) base
      | _ => Key.notDefined
    | none => Key.notDefined

/-- Modelled from the spec: SS3 letter lookup (§4.1): `P`/`Q`/`R`/`S` →
F1-F4, any other letter → NotDefined over the three bytes. -/
def ss3Key (b : Nat) : Key :=
  match b with
  | 80 => Key.f1 | 81 => Key.f2 | 82 => Key.f3 | 83 => Key.f4
  | _ => Key.notDefined

/-- Modelled from the spec: number of bytes in the UTF-8 encoding whose
lead byte this is (§4.2 Normal-state invariant); continuation or invalid
lead bytes count as 1 (lossy handling). -/
def utf8Needed (b : Nat) : Nat :=
  if b < 128 then 1
  else if b < 192 then 1
  else if b < 224 then 2
  else if b < 240 then 3
  else if b < 248 then 4
  else 1

/-- Modelled from the spec: is this a UTF-8 continuation byte. -/
def isContByte (b : Nat) : Bool :=
  decide (128 ≤ b ∧ b < 192)

/-- Modelled from the spec: decode one complete UTF-8 byte group into its
scalar value (lossy: invalid scalar values degrade via `Char.ofNat`). -/
def utf8Decode (bs : List Nat) : Char :=
  match bs with
  | [b] => Char.ofNat b
  | [b1, b2] => Char.ofNat ((b1 % 32) * 64 + b2 % 64)
  | [b1, b2, b3] => Char.ofNat ((b1 % 16) * 4096 + (b2 % 64) * 64 + b3 % 64)
  | [b1, b2, b3, b4] =>
    Char.ofNat ((b1 % 8) * 262144 + (b2 % 64) * 4096 + (b3 % 64) * 64 + b4 % 64)
  | _ => Char.ofNat 65533

/-- Modelled from the spec: lossy UTF-8 decoding of a byte run (§4.2
PasteBody: "invalid UTF-8 inside paste is lossily decoded, never
fatal"); malformed bytes decode to U+FFFD. -/
def lossyDecode : List Nat → List Char
  | [] => []
  | b :: rest =>
    if b < 128 then Char.ofNat b :: lossyDecode rest
    else if b < 192 then Char.ofNat 65533 :: lossyDecode rest
    else if b < 224 then
      match rest with
      | b2 :: r2 =>
        if isContByte b2 then utf8Decode [b, b2] :: lossyDecode r2
        else Char.ofNat 65533 :: lossyDecode (b2 :: r2)
      | [] => [Char.ofNat 65533]
    else if b < 240 then
      match rest with
      | b2 :: b3 :: r3 =>
        if isContByte b2 && isContByte b3 then utf8Decode [b, b2, b3] :: lossyDecode r3
        else Char.ofNat 65533 :: lossyDecode (b2 :: b3 :: r3)
      | [b2] => Char.ofNat 65533 :: lossyDecode [b2]
      | [] => [Char.ofNat 65533]
    else if b < 248 then
      match rest with
      | b2 :: b3 :: b4 :: r4 =>
        if isContByte b2 && isContByte b3 && isContByte b4 then
          utf8Decode [b, b2, b3, b4] :: lossyDecode r4
        else Char.ofNat 65533 :: lossyDecode (b2 :: b3 :: b4 :: r4)
      | [b2, b3] => Char.ofNat 65533 :: lossyDecode [b2, b3]
      | [b2] => Char.ofNat 65533 :: lossyDecode [b2]
      | [] => [Char.ofNat 65533]
    else Char.ofNat 65533 :: lossyDecode rest

/-- Modelled from the spec: the closing marker `ESC [ 2 0 1 ~` of a
bracketed paste (§4.1). -/
def pasteEnd : List Nat :=
  [27, 91, 50, 48, 49, 126]

/-- Modelled from the spec: Normal-state handling of one byte with an
empty pending buffer (§4.2, §4.3): ESC starts buffering; other control
bytes classify immediately through the control table; printable ASCII
emits a NotDefined event carrying the character as text; a multi-byte
UTF-8 lead byte is buffered until the code point completes; a stray
continuation or invalid byte degrades to NotDefined over that byte. -/
def normalStep (b : Nat) : KeyParser × List KeyEvent :=
  if b = 27 then (⟨[27], ParserState.escape⟩, [])
  else if b < 32 ∨ b = 127 then
    (⟨[], ParserState.normal⟩, [⟨ctrlKey b, [b], none⟩])
  else if b < 127 then
    (⟨[], ParserState.normal⟩, [⟨Key.notDefined, [b], some (Char.ofNat b).toString⟩])
  else if 2 ≤ utf8Needed b then (⟨[b], ParserState.normal⟩, [])
  else (⟨[], ParserState.normal⟩, [⟨Key.notDefined, [b], none⟩])

/-- Modelled from the spec: the streaming state machine's transition on a
single appended byte (§4.2).  This is the core of the absent Rust
`KeyParser::feed` loop body: buffering of partial sequences, prefix
disambiguation, table lookup on a CSI final byte, paste-body capture until
the end marker, and NotDefined fallbacks — no byte is ever dropped and no
event is emitted while a longer match is still possible. -/
def feedByte (p : KeyParser) (b : Nat) : KeyParser × List KeyEvent :=
  match p.state with
  | ParserState.normal =>
    match p.buffer with
    | [] => normalStep b
    | lead :: rest =>
      if isContByte b then
        if utf8Needed lead ≤ rest.length + 2 then
          (⟨[], ParserState.normal⟩,
            [⟨Key.notDefined, lead :: rest ++ [b],
              some (utf8Decode (lead :: rest ++ [b])).toString⟩])
        else (⟨lead :: rest ++ [b], ParserState.normal⟩, [])
      else
        ((normalStep b).1, ⟨Key.notDefined, lead :: rest, none⟩ :: (normalStep b).2)
  | ParserState.escape =>
    if b = 91 then (⟨p.buffer ++ [b], ParserState.csi⟩, [])
    else if b = 79 then (⟨p.buffer ++ [b], ParserState.ss3⟩, [])
    else if 32 ≤ b ∧ b ≤ 126 then
      (⟨[], ParserState.normal⟩, [⟨Key.alt b, p.buffer ++ [b], none⟩])
    else (⟨[], ParserState.normal⟩, [⟨Key.notDefined, p.buffer ++ [b], none⟩])
  | ParserState.csi =>
    if (48 ≤ b ∧ b ≤ 57) ∨ b = 59 then (⟨p.buffer ++ [b], ParserState.csi⟩, [])
    else if b = 126 ∧ parseParams (p.buffer.drop 2) = [200] then
      (⟨p.buffer ++ [b], ParserState.pasteBody⟩, [])
    else
      (⟨[], ParserState.normal⟩,
        [⟨csiLookup (parseParams (p.buffer.drop 2)) b, p.buffer ++ [b], none⟩])
  | ParserState.ss3 =>
    (⟨[], ParserState.normal⟩, [⟨ss3Key b, p.buffer ++ [b], none⟩])
  | ParserState.pasteBody =>
    if pasteEnd.isSuffixOf (p.buffer ++ [b]) then
      (⟨[], ParserState.normal⟩,
        [⟨Key.bracketedPaste, p.buffer ++ [b],
          some (String.mk (lossyDecode
            (((p.buffer ++ [b]).take ((p.buffer ++ [b]).length - 6)).drop 6)))⟩])
    else (⟨p.buffer ++ [b], ParserState.pasteBody⟩, [])

/-- Modelled from the spec: `feed(bytes)` (§4.2): appends the given bytes,
advances parsing byte-by-byte, and returns the new parser together with
every event completed during this call in completion order; empty input
returns no events and leaves the state unchanged. -/
def feed : KeyParser → List Nat → KeyParser × List KeyEvent
  | p, [] => (p, [])
  | p, b :: rest =>
    ((feed (feedByte p b).1 rest).1,
      (feedByte p b).2 ++ (feed (feedByte p b).1 rest).2)

/-- Modelled from the spec: the literal/control resolution flush applies
to each buffered byte (§4.2 flush policy): a pending ESC resolves to the
Escape key, control bytes to their control keys, printable bytes (prefix
letters, parameter digits) to literal characters, anything else to
NotDefined. -/
def literalResolve (b : Nat) : KeyEvent :=
  if b = 27 then ⟨Key.escape, [b], none⟩
  else if b < 32 ∨ b = 127 then ⟨ctrlKey b, [b], none⟩
  else if b < 127 then ⟨Key.notDefined, [b], some (Char.ofNat b).toString⟩
  else ⟨Key.notDefined, [b], none⟩

/-- Modelled from the spec: `flush()` (§4.2): forces resolution of
whatever is buffered, resolving each buffered byte individually to its
literal/control interpretation; afterwards the buffer is empty and the
state returns to Normal. -/
def flush (p : KeyParser) : KeyParser × List KeyEvent :=
  (KeyParser.new, p.buffer.map literalResolve)

/-- Modelled from the spec: `reset()` (§4.2): discards all buffered bytes
and state without producing events, returning to Normal. -/
def reset (_ : KeyParser) : KeyParser × List KeyEvent :=
  (KeyParser.new, [])

/-- Concatenation of the `raw_bytes` fields of an event list, in order. -/
def rawConcat : List KeyEvent → List Nat
  | [] => []
  | e :: rest => e.raw_bytes ++ rawConcat rest

/-- A printable byte's event: NotDefined carrying the character as text. -/
def printableEvent (b : Nat) : KeyEvent :=
  ⟨Key.notDefined, [b], some (Char.ofNat b).toString⟩

theorem rawConcat_append (l1 l2 : List KeyEvent) :
    rawConcat (l1 ++ l2) = rawConcat l1 ++ rawConcat l2 := by
  induction l1 with
  | nil => rfl
  | cons e rest ih => simp [rawConcat, ih]

theorem normalStep_conserve (b : Nat) :
    rawConcat (normalStep b).2 ++ (normalStep b).1.buffer = [b] := by
  unfold normalStep
  split_ifs <;> simp_all [rawConcat]

theorem feedByte_conserve (p : KeyParser) (b : Nat) :
    rawConcat (feedByte p b).2 ++ (feedByte p b).1.buffer = p.buffer ++ [b] := by
  obtain ⟨buf, st⟩ := p
  cases st with
  | normal =>
    cases buf with
    | nil => simpa [feedByte] using normalStep_conserve b
    | cons lead rest =>
      simp only [feedByte]
      split_ifs <;>
        simp [rawConcat, List.append_assoc, normalStep_conserve]
  | escape =>
    simp only [feedByte]
    split_ifs <;> simp [rawConcat]
  | csi =>
    simp only [feedByte]
    split_ifs <;> simp [rawConcat]
  | ss3 => simp [feedByte, rawConcat]
  | pasteBody =>
    simp only [feedByte]
    split_ifs <;> simp [rawConcat]

theorem feed_conserve (bs : List Nat) :
    ∀ p, rawConcat (feed p bs).2 ++ (feed p bs).1.buffer = p.buffer ++ bs := by
  induction bs with
  | nil => intro p; simp [feed, rawConcat]
  | cons b rest ih =>
    intro p
    simp only [feed, rawConcat_append, List.append_assoc]
    rw [ih (feedByte p b).1, ← List.append_assoc, feedByte_conserve]
    simp

theorem literalResolve_raw (b : Nat) : (literalResolve b).raw_bytes = [b] := by
  unfold literalResolve
  split_ifs <;> rfl

theorem flush_raw (p : KeyParser) : rawConcat (flush p).2 = p.buffer := by
  show rawConcat (p.buffer.map literalResolve) = p.buffer
  induction p.buffer with
  | nil => rfl
  | cons b rest ih => simp [rawConcat, literalResolve_raw, ih]

theorem normalStep_raw_nonempty (b : Nat) :
    ((normalStep b).2.all fun e => !e.raw_bytes.isEmpty) = true := by
  unfold normalStep
  split_ifs <;> simp

theorem feedByte_raw_nonempty (p : KeyParser) (b : Nat) :
    ((feedByte p b).2.all fun e => !e.raw_bytes.isEmpty) = true := by
  obtain ⟨buf, st⟩ := p
  cases st with
  | normal =>
    cases buf with
    | nil => simpa [feedByte] using normalStep_raw_nonempty b
    | cons lead rest =>
      simp only [feedByte]
      split_ifs <;> simp [normalStep_raw_nonempty]
  | escape =>
    simp only [feedByte]
    split_ifs <;> simp
  | csi =>
    simp only [feedByte]
    split_ifs <;> simp
  | ss3 => simp [feedByte]
  | pasteBody =>
    simp only [feedByte]
    split_ifs <;> simp

theorem feed_append_law (bs1 : List Nat) :
    ∀ p bs2, feed p (bs1 ++ bs2) =
      ((feed (feed p bs1).1 bs2).1, (feed p bs1).2 ++ (feed (feed p bs1).1 bs2).2) := by
  induction bs1 with
  | nil => intro p bs2; simp [feed]
  | cons b rest ih =>
    intro p bs2
    simp [feed, ih, List.append_assoc]

/-- Feeding the bytes one call at a time, accumulating the events of each
call. -/
def feedSingles : KeyParser → List Nat → KeyParser × List KeyEvent
  | p, [] => (p, [])
  | p, b :: rest =>
    ((feedSingles (feed p [b]).1 rest).1,
      (feed p [b]).2 ++ (feedSingles (feed p [b]).1 rest).2)

/-- C1: for every byte sequence `b`, `feed(b)` on a fresh parser followed
immediately by `flush()` yields event lists whose `raw_bytes`,
concatenated in the order the events were returned, equal exactly `b`:
no byte is lost, duplicated or reordered. -/
theorem feed_flush_conserves_bytes (bs : List Nat) :
    rawConcat ((feed KeyParser.new bs).2 ++ (flush (feed KeyParser.new bs).1).2) = bs := by
  rw [rawConcat_append, flush_raw]
  simpa [KeyParser.new] using feed_conserve bs KeyParser.new

/-- C2: feeding bytes one at a time across many `feed` calls produces the
same final parser and the same concatenated event stream (same keys,
raw bytes and texts, in the same order) as feeding them in a single
call — proved for every starting state and every byte sequence, which in
particular covers every sequence recognized by the table. -/
theorem feed_incremental_equiv (bs : List Nat) :
    ∀ p, feedSingles p bs = feed p bs := by
  induction bs with
  | nil => intro p; rfl
  | cons b rest ih =>
    intro p
    simp [feedSingles, feed, ih]

/-- C3: `reset()` produces no events, discards all buffered bytes and
returns the parser to the freshly-constructed state, so every subsequent
`feed` behaves identically to the same call on a fresh parser — including
from a mid-sequence state such as after `feed(ESC [)`. -/
theorem reset_behaves_like_fresh :
    (∀ p bs, (reset p).2 = [] ∧ (reset p).1.buffer = [] ∧
      feed (reset p).1 bs = feed KeyParser.new bs) ∧
    feed (reset (feed KeyParser.new [27, 91]).1).1 [3] =
      (KeyParser.new, [⟨Key.controlC, [3], none⟩]) := by
  exact ⟨fun p bs => ⟨rfl, rfl, rfl⟩, by decide⟩

/-- C4: `feed`, `flush` and `reset` are total functions of the model
(they return normally on every input); every event they emit covers a
non-empty run of consumed bytes, and malformed or unrecognized input —
an unrecognized CSI final byte, an invalid lead byte — is delivered as a
successful NotDefined event over the consumed bytes, never a failure. -/
theorem feed_total_notDefined_fallback :
    (∀ p b, ((feedByte p b).2.all fun e => !e.raw_bytes.isEmpty) = true) ∧
    (∀ p, ((flush p).2.all fun e => !e.raw_bytes.isEmpty) = true) ∧
    (∀ p, (reset p).2 = []) ∧
    feed KeyParser.new [27, 91, 57, 57, 113] =
      (KeyParser.new, [⟨Key.notDefined, [27, 91, 57, 57, 113], none⟩]) ∧
    feed KeyParser.new [255] = (KeyParser.new, [⟨Key.notDefined, [255], none⟩]) := by
  refine ⟨feedByte_raw_nonempty, fun p => ?_, fun p => rfl, by decide, by decide⟩
  show ((p.buffer.map literalResolve).all fun e => !e.raw_bytes.isEmpty) = true
  induction p.buffer with
  | nil => rfl
  | cons b rest ih => simp_all [literalResolve_raw]

/-- C5: on a fresh parser `feed(ESC)` returns zero events, the subsequent
`feed('[')` returns zero events, and the subsequent `feed('A')` returns
exactly one Up event over `ESC [ A`; in general `feed` never resolves the
lone buffered ESC to an event (no emitted event has raw bytes `[ESC]`),
only `flush` does. -/
theorem esc_resolved_only_by_flush :
    feed KeyParser.new [27] = (⟨[27], ParserState.escape⟩, []) ∧
    feed ⟨[27], ParserState.escape⟩ [91] = (⟨[27, 91], ParserState.csi⟩, []) ∧
    feed ⟨[27, 91], ParserState.csi⟩ [65] =
      (KeyParser.new, [⟨Key.up, [27, 91, 65], none⟩]) ∧
    (∀ b, ((feedByte ⟨[27], ParserState.escape⟩ b).2.all
      fun e => e.raw_bytes != [27]) = true) ∧
    flush ⟨[27], ParserState.escape⟩ = (KeyParser.new, [⟨Key.escape, [27], none⟩]) := by
  refine ⟨by decide, by decide, by decide, fun b => ?_, by decide⟩
  simp only [feedByte]
  split_ifs <;> simp

/-- C6: feeding the complete bracketed-paste frame
`ESC[200~hello world ESC[201~` produces exactly one BracketedPaste event
whose text is the interior bytes decoded as text and whose raw bytes span
the entire framed sequence including both markers. -/
theorem bracketed_paste_frame :
    feed KeyParser.new
      [27, 91, 50, 48, 48, 126, 104, 101, 108, 108, 111, 32, 119, 111, 114,
        108, 100, 27, 91, 50, 48, 49, 126] =
    (KeyParser.new,
      [⟨Key.bracketedPaste,
        [27, 91, 50, 48, 48, 126, 104, 101, 108, 108, 111, 32, 119, 111, 114,
          108, 100, 27, 91, 50, 48, 49, 126],
        some "hello world"⟩]) := by
  decide

/-- C7: a second numeric CSI parameter is decoded as a modifier mask with
the terminal convention `modifier = value - 1` applied to the base key of
the final byte: `feed(ESC[1;2A)` yields exactly one Shift+Up event and
`feed(ESC[1;5C)` exactly one Ctrl+Right event. -/
theorem csi_modifier_mask :
    feed KeyParser.new [27, 91, 49, 59, 50, 65] =
      (KeyParser.new, [⟨Key.shiftUp, [27, 91, 49, 59, 50, 65], none⟩]) ∧
    feed KeyParser.new [27, 91, 49, 59, 53, 67] =
      (KeyParser.new, [⟨Key.controlRight, [27, 91, 49, 59, 53, 67], none⟩]) ∧
    (∀ n m, csiLookup [n, m] 65 = applyMod (m - 1) Key.up) ∧
    (∀ n m, csiLookup [n, m] 67 = applyMod (m - 1) Key.right) ∧
    applyMod (2 - 1) Key.up = Key.shiftUp ∧
    applyMod (5 - 1) Key.right = Key.controlRight := by
  exact ⟨by decide, by decide, fun n m => rfl, fun n m => rfl, rfl, rfl⟩

/-- C8: after `feed(ESC [)` leaves the two-byte prefix buffered, `flush()`
returns exactly two events — ESC resolved as the Escape key and `[` as its
literal character — and afterwards the buffer is empty and the parser is
back in Normal state. -/
theorem flush_esc_bracket :
    flush (feed KeyParser.new [27, 91]).1 =
      (KeyParser.new,
        [⟨Key.escape, [27], none⟩, ⟨Key.notDefined, [91], some "["⟩]) := by
  decide

/-- C9: a run of printable bytes fed in Normal state emits exactly one
event per decoded UTF-8 scalar value, each NotDefined with the single
character as text and the consumed encoding as raw bytes — never batched
into one multi-character event; the second conjunct shows a two-byte
UTF-8 scalar consumed as one event over both bytes. -/
theorem printable_one_event_per_scalar :
    (∀ bs, (∀ b ∈ bs, 32 ≤ b ∧ b ≤ 126) →
      feed KeyParser.new bs = (KeyParser.new, bs.map printableEvent)) ∧
    feed KeyParser.new [195, 169] =
      (KeyParser.new, [⟨Key.notDefined, [195, 169], some (Char.ofNat 233).toString⟩]) := by
  refine ⟨fun bs => ?_, by decide⟩
  induction bs with
  | nil => intro h; rfl
  | cons b rest ih =>
    intro h
    have hb := h b (List.mem_cons_self b rest)
    have h1 : feedByte KeyParser.new b = (KeyParser.new, [printableEvent b]) := by
      simp only [feedByte, KeyParser.new, normalStep, printableEvent]
      split_ifs <;> first | rfl | (exfalso; omega)
    simp only [feed, h1]
    rw [ih fun x hx => h x (List.mem_cons_of_mem b hx)]
    simp

/-- C9 witness: `feed(b'hello')` on a fresh parser yields five
single-character NotDefined events. -/
theorem printable_one_event_per_scalar_witness :
    feed KeyParser.new [104, 101, 108, 108, 111] =
      (KeyParser.new, [104, 101, 108, 108, 111].map printableEvent) :=
  printable_one_event_per_scalar.1 [104, 101, 108, 108, 111] (by decide)

/-- C10: one `feed` call on mixed input returns all events completed
during the call in completion order: `feed(0x03 ESC[A a ESC[B)` returns
exactly four events — Ctrl+C, Up, NotDefined with text "a", Down. -/
theorem mixed_input_completion_order :
    feed KeyParser.new [3, 27, 91, 65, 97, 27, 91, 66] =
      (KeyParser.new,
        [⟨Key.controlC, [3], none⟩,
         ⟨Key.up, [27, 91, 65], none⟩,
         ⟨Key.notDefined, [97], some "a"⟩,
         ⟨Key.down, [27, 91, 66], none⟩]) := by
  decide

end Replkit
